import Mathlib

/-!
Verification of the TLS hello-message codec and the handshake transcript
hash (hello.cpp, tls_handshake_hash.cpp).

The C++ sources are shallowly embedded: byte buffers become lists of
naturals (each understood to lie below 256), the bounds-checked wire
reader becomes state-passing functions in the Except monad, effects on
the record writer and the transcript hash become explicit state and an
event trace, and the two while loops of the Client Hello extension
parser become fuel-indexed structural recursions (the fuel is set to one
more than the number of remaining input bytes at the call site, and each
loop iteration consumes at least one input byte, so the artificial
fuelExhausted branch is unreachable on every run the C++ code performs).
External collaborators (policy, RNG, digest primitives, byte-extraction
utilities declared in headers outside the given sources) are modelled
from the spec where noted.
-/

set_option maxRecDepth 1000

namespace Botan

abbrev Byte := Nat

/-- Modelled from the spec: the record-layer content type tag for
handshake records, a constant of the record layer outside this core. -/
def HANDSHAKE : Nat := 22

/-- Modelled from the spec: the stable small integer type tag of the
Hello Request message, declared in a header outside the given sources. -/
def HELLO_REQUEST : Nat := 0

/-- Modelled from the spec: the stable small integer type tag of the
Server Hello message, declared in a header outside the given sources. -/
def SERVER_HELLO : Nat := 2

/-- Modelled from the spec: the get_byte utility extracts byte i
(i = 0 being the most significant) of the 4-byte big-endian
representation of a 32-bit value. -/
def get_byte_u32 (i x : Nat) : Nat := (x / 256 ^ (3 - i)) % 256

/-- Modelled from the spec: make_u16bit assembles a 16-bit value from a
high and a low byte (big-endian). -/
def make_u16bit (hi lo : Nat) : Nat := hi * 256 + lo

/-- The running handshake transcript accumulator: an append-only byte
sequence (member data of TLS_Handshake_Hash). -/
structure TLS_Handshake_Hash where
  data : List Byte
deriving DecidableEq

/-- Modelled from the spec: update appends raw bytes to the append-only
accumulator (declared in tls_handshake_hash.h). -/
def TLS_Handshake_Hash.update (h : TLS_Handshake_Hash) (bs : List Byte) :
    TLS_Handshake_Hash :=
  ⟨h.data ++ bs⟩

/-- Single-byte update, the overload used for the header bytes. -/
def TLS_Handshake_Hash.updateByte (h : TLS_Handshake_Hash) (b : Byte) :
    TLS_Handshake_Hash :=
  ⟨h.data ++ [b]⟩

/-- TLS_Handshake_Hash::update(Handshake_Type, msg) from
tls_handshake_hash.cpp: absorb the type byte, then bytes 1..3 of the
4-byte big-endian body length, then the body. -/
def TLS_Handshake_Hash.updateTyped (h : TLS_Handshake_Hash) (t : Byte)
    (msg : List Byte) : TLS_Handshake_Hash :=
  let h1 := h.updateByte t
  let h2 := [0, 1, 2].foldl
    (fun a i => a.updateByte (get_byte_u32 (i + 1) msg.length)) h1
  h2.update msg

/-- Observable effects of HandshakeMessage::send: the transcript hash
update, the record-layer write, and the synchronous flush, in order. -/
inductive WireEvent where
  | hashUpdated : List Byte → WireEvent
  | wroteRecord : Nat → List Byte → WireEvent
  | flushed : WireEvent
deriving DecidableEq

/-- HandshakeMessage::send from hello.cpp: build a 4-byte header (type
byte, then bytes 1..3 of the big-endian body length), append the body,
feed the framed bytes to the transcript hash, then write the framed
bytes as a HANDSHAKE record and flush. Returns the updated hash and the
ordered event trace. -/
def HandshakeMessage.send (msgType : Byte) (body : List Byte)
    (h : TLS_Handshake_Hash) : TLS_Handshake_Hash × List WireEvent :=
  let sendBuf := msgType :: get_byte_u32 1 body.length ::
    get_byte_u32 2 body.length :: get_byte_u32 3 body.length :: body
  (h.update sendBuf,
   [WireEvent.hashUpdated sendBuf, WireEvent.wroteRecord HANDSHAKE sendBuf,
    WireEvent.flushed])

/-- Hello_Request::serialize: the body is empty. -/
def Hello_Request.serialize : List Byte := []

/-- Hello_Request::Hello_Request(Record_Writer&): construction for
sending. A freshly constructed throwaway TLS_Handshake_Hash (the dummy)
receives the framed bytes; the constructor takes no transcript argument,
so no transcript visible to the caller can be touched. Returns the
events appended to the writer together with the discarded dummy hash. -/
def Hello_Request.construct (w : List WireEvent) :
    List WireEvent × TLS_Handshake_Hash :=
  let dummy : TLS_Handshake_Hash := ⟨[]⟩
  let r := HandshakeMessage.send HELLO_REQUEST Hello_Request.serialize dummy
  (w ++ r.2, r.1)

/-- A streaming digest instance (external primitive): the absorbed byte
sequence. -/
structure DigestState where
  absorbed : List Byte
deriving DecidableEq

/-- Absorb a byte sequence. -/
def DigestState.update (d : DigestState) (bs : List Byte) : DigestState :=
  ⟨d.absorbed ++ bs⟩

/-- Absorb a single byte. -/
def DigestState.updateByte (d : DigestState) (b : Byte) : DigestState :=
  ⟨d.absorbed ++ [b]⟩

/-- The pad loops of final_ssl3: n successive single-byte updates of the
same pad byte. -/
def padUpdate : Nat → Byte → DigestState → DigestState
  | 0, _, d => d
  | n + 1, b, d => padUpdate n b (d.updateByte b)

/-- TLS_Handshake_Hash::final_ssl3 from tls_handshake_hash.cpp. The MD5
and SHA-1 primitives are external; they are Modelled from the spec as
arbitrary functions from absorbed bytes to output (a finalize applies
the digest function to the absorbed bytes and resets the instance, so
the second round starts from a fresh state). Pad bytes: 0x36 = 54 inner,
0x5C = 92 outer; pad counts 48 for MD5, 40 for SHA-1. -/
def TLS_Handshake_Hash.final_ssl3 (md5fn sha1fn : List Byte → List Byte)
    (h : TLS_Handshake_Hash) (secret : List Byte) : List Byte :=
  let md5a := padUpdate 48 54 ((DigestState.update ⟨[]⟩ h.data).update secret)
  let sha1a := padUpdate 40 54 ((DigestState.update ⟨[]⟩ h.data).update secret)
  let inner_md5 := md5fn md5a.absorbed
  let inner_sha1 := sha1fn sha1a.absorbed
  let md5b := (padUpdate 48 92 (DigestState.update ⟨[]⟩ secret)).update inner_md5
  let sha1b := (padUpdate 40 92 (DigestState.update ⟨[]⟩ secret)).update inner_sha1
  md5fn md5b.absorbed ++ sha1fn sha1b.absorbed

lemma padUpdate_absorbed (n : Nat) (b : Byte) (d : DigestState) :
    (padUpdate n b d).absorbed = d.absorbed ++ List.replicate n b := by
  induction n generalizing d with
  | zero => simp [padUpdate]
  | succ k ih =>
    simp [padUpdate, ih, DigestState.updateByte, List.replicate_succ]

/-- Claim C1: HandshakeMessage::send feeds to the transcript hash
exactly the bytes it writes to the transport: a 4-byte header (the type
byte followed by the 3 low-order bytes of the body length in big-endian
order) then the body; the hash update happens before the record write,
and the write is flushed before send returns. -/
theorem send_frames_hashes_then_writes (t : Byte) (body : List Byte)
    (h : TLS_Handshake_Hash) :
    (HandshakeMessage.send t body h).1.data =
      h.data ++ (t :: (body.length / 65536) % 256 ::
        (body.length / 256) % 256 :: body.length % 256 :: body) ∧
    (HandshakeMessage.send t body h).2 =
      [WireEvent.hashUpdated (t :: (body.length / 65536) % 256 ::
         (body.length / 256) % 256 :: body.length % 256 :: body),
       WireEvent.wroteRecord HANDSHAKE (t :: (body.length / 65536) % 256 ::
         (body.length / 256) % 256 :: body.length % 256 :: body),
       WireEvent.flushed] ∧
    ((body.length / 65536) % 256) * 65536 +
      ((body.length / 256) % 256) * 256 + body.length % 256 =
      body.length % 16777216 := by
  refine ⟨?_, ?_, ?_⟩
  · simp [HandshakeMessage.send, TLS_Handshake_Hash.update, get_byte_u32]
  · simp [HandshakeMessage.send, get_byte_u32]
  · omega

/-- Claim C9: the inbound hashing helper TLS_Handshake_Hash::update with
a type tag and a body appends to the accumulator exactly the framed
bytes that HandshakeMessage::send feeds to the transcript hash for the
same type and body. -/
theorem updateTyped_matches_send_framing (h : TLS_Handshake_Hash) (t : Byte)
    (b : List Byte) :
    TLS_Handshake_Hash.updateTyped h t b = (HandshakeMessage.send t b h).1 := by
  simp [TLS_Handshake_Hash.updateTyped, HandshakeMessage.send,
    TLS_Handshake_Hash.update, TLS_Handshake_Hash.updateByte, List.foldl]

/-- Claim C8: constructing a Hello Request for sending transmits the
framed empty message (type byte 0 and a zero length header) and flushes,
but the framed bytes are fed only to a freshly constructed throwaway
hash, returned here only to show it started empty; the constructor takes
no transcript argument, so every transcript hash visible to the caller
is unchanged. -/
theorem helloRequest_construct_bypasses_transcript (w : List WireEvent) :
    Hello_Request.construct w =
      (w ++ [WireEvent.hashUpdated [HELLO_REQUEST, 0, 0, 0],
             WireEvent.wroteRecord HANDSHAKE [HELLO_REQUEST, 0, 0, 0],
             WireEvent.flushed],
       ⟨[HELLO_REQUEST, 0, 0, 0]⟩) := by
  simp [Hello_Request.construct, HandshakeMessage.send, Hello_Request.serialize,
    TLS_Handshake_Hash.update, get_byte_u32, HELLO_REQUEST]

/-- Claim C7: the legacy finalization equals, per digest, the hash of
(accumulated bytes, secret, 0x36 repeated the digest-specific count) as
inner digest, then the hash of (secret, 0x5C repeated the same count,
inner digest) as outer digest, with count 48 for the 16-byte-output
algorithm and 40 for the 20-byte-output algorithm, the result being the
two outer digests concatenated — 36 bytes when the digest output lengths
are 16 and 20. -/
theorem final_ssl3_structure (md5fn sha1fn : List Byte → List Byte)
    (h : TLS_Handshake_Hash) (secret : List Byte) :
    TLS_Handshake_Hash.final_ssl3 md5fn sha1fn h secret =
      md5fn (secret ++ List.replicate 48 92 ++
        md5fn (h.data ++ secret ++ List.replicate 48 54)) ++
      sha1fn (secret ++ List.replicate 40 92 ++
        sha1fn (h.data ++ secret ++ List.replicate 40 54)) ∧
    ((∀ x, (md5fn x).length = 16) → (∀ x, (sha1fn x).length = 20) →
      (TLS_Handshake_Hash.final_ssl3 md5fn sha1fn h secret).length = 36) := by
  constructor
  · simp [TLS_Handshake_Hash.final_ssl3, padUpdate_absorbed,
      DigestState.update, List.append_assoc]
  · intro h16 h20
    simp [TLS_Handshake_Hash.final_ssl3, List.length_append, h16, h20]

/-- Witness for C7 at concrete digest functions. -/
theorem final_ssl3_structure_witness :
    (∀ x : List Byte, ((fun _ => List.replicate 16 (0 : Nat)) x).length = 16) ∧
    (TLS_Handshake_Hash.final_ssl3 (fun _ => List.replicate 16 0)
      (fun _ => List.replicate 20 1) ⟨[]⟩ []).length = 36 := by
  refine ⟨fun x => by simp, ?_⟩
  exact (final_ssl3_structure (fun _ => List.replicate 16 0)
    (fun _ => List.replicate 20 1) ⟨[]⟩ []).2 (fun _ => by simp) (fun _ => by simp)

/-!
## The wire reader and writer helpers

TLS_Data_Reader and append_tls_length_value live in tls_reader.h, which
is not among the given sources; they are Modelled from the spec
(sections 4.1 and 4.2): a bounds-checked sequential cursor, here the
list of not-yet-consumed bytes, and length-prefixed encoders.
-/

/-- The two error kinds of the design (decode versus protocol-level),
plus the unreachable fuel branch of the loop embeddings. -/
inductive TLSErr where
  | decodingError : TLSErr
  | handshakeFailure : TLSErr
  | protocolVersionErr : TLSErr
  | fuelExhausted : TLSErr
deriving DecidableEq

/-- Modelled from the spec: get_byte of the wire reader — one byte, a
decode error if none remain. -/
def readByte : List Byte → Except TLSErr (Byte × List Byte)
  | [] => .error .decodingError
  | b :: r => .ok (b, r)

/-- Modelled from the spec: get_u16bit — two bytes, big-endian; a
decode error if fewer than two remain. -/
def readU16 : List Byte → Except TLSErr (Nat × List Byte)
  | b1 :: b2 :: r => .ok (make_u16bit b1 b2, r)
  | _ => .error .decodingError

/-- Modelled from the spec: get_fixed n — exactly n bytes. -/
def readFixed (n : Nat) (r : List Byte) :
    Except TLSErr (List Byte × List Byte) :=
  if n ≤ r.length then .ok (r.take n, r.drop n) else .error .decodingError

/-- Modelled from the spec: get_range with a 1-byte length field — the
declared length must lie in [lo, hi] and not exceed the remaining
input. -/
def readRange1 (lo hi : Nat) : List Byte →
    Except TLSErr (List Byte × List Byte)
  | len :: r1 =>
    if lo ≤ len ∧ len ≤ hi then readFixed len r1 else .error .decodingError
  | [] => .error .decodingError

/-- Modelled from the spec: get_range_vector of byte elements with a
1-byte length field — element count bounds on the declared length. -/
def readRangeVecByte1 (lo hi : Nat) : List Byte →
    Except TLSErr (List Byte × List Byte)
  | len :: r1 =>
    if lo ≤ len ∧ len ≤ hi then readFixed len r1 else .error .decodingError
  | [] => .error .decodingError

/-- Modelled from the spec: get_range_vector of byte elements with a
2-byte length field. -/
def readRangeVecByte2 (lo hi : Nat) : List Byte →
    Except TLSErr (List Byte × List Byte)
  | b1 :: b2 :: r1 =>
    if lo ≤ make_u16bit b1 b2 ∧ make_u16bit b1 b2 ≤ hi then
      readFixed (make_u16bit b1 b2) r1
    else .error .decodingError
  | _ => .error .decodingError

/-- Parse a byte sequence as big-endian 16-bit elements. -/
def parseU16s : List Byte → List Nat
  | b1 :: b2 :: r => make_u16bit b1 b2 :: parseU16s r
  | _ => []

/-- Modelled from the spec: get_range_vector of 16-bit elements with a
2-byte length field — the declared byte length must be divisible by the
element width and the element count within [lo, hi]. -/
def readRangeVecU16 (lo hi : Nat) : List Byte →
    Except TLSErr (List Nat × List Byte)
  | b1 :: b2 :: r1 =>
    if make_u16bit b1 b2 % 2 = 0 ∧ lo ≤ make_u16bit b1 b2 / 2 ∧
        make_u16bit b1 b2 / 2 ≤ hi then
      match readFixed (make_u16bit b1 b2) r1 with
      | .error e => .error e
      | .ok (bs, r2) => .ok (parseU16s bs, r2)
    else .error .decodingError
  | _ => .error .decodingError

/-- Modelled from the spec: discard_next n — skip n bytes, failing if
fewer remain. -/
def discardNext (n : Nat) (r : List Byte) : Except TLSErr (List Byte) :=
  if n ≤ r.length then .ok (r.drop n) else .error .decodingError

/-- Modelled from the spec: append_tls_length_value with a 1-byte length
field — the low byte of the payload length, then the payload. -/
def lenValue1 (payload : List Byte) : List Byte :=
  payload.length % 256 :: payload

/-- Encode 16-bit elements big-endian. -/
def encodeU16s : List Nat → List Byte
  | [] => []
  | s :: r => (s / 256) % 256 :: s % 256 :: encodeU16s r

/-- Modelled from the spec: append_tls_length_value of 16-bit elements
with a 2-byte length field — the big-endian byte length (two bytes per
element), then the big-endian elements. -/
def lenValueU16 (elems : List Nat) : List Byte :=
  ((2 * elems.length) / 256) % 256 :: (2 * elems.length) % 256 ::
    encodeU16s elems

/-!
## Client Hello
-/

/-- The data fields of Client_Hello (tls_messages.h): version, random,
session id, offered suites, offered compression methods, and the two
strings filled from extensions. -/
structure Client_Hello where
  c_version : Nat
  c_random : List Byte
  sess_id : List Byte
  suites : List Nat
  comp_methods : List Byte
  requested_hostname : List Byte
  requested_srp_id : List Byte
deriving DecidableEq

/-- Client_Hello::serialize from hello.cpp: two version bytes, the raw
random, then the length-prefixed session id, suite list and compression
list. -/
def Client_Hello.serialize (ch : Client_Hello) : List Byte :=
  ((ch.c_version / 256) % 256 :: ch.c_version % 256 :: ch.c_random)
    ++ lenValue1 ch.sess_id ++ lenValueU16 ch.suites
    ++ lenValue1 ch.comp_methods

/-- The cipher-spec scan of Client_Hello::deserialize_sslv2: walk the
3-byte entries; an entry whose first byte is nonzero is an SSLv2-only
cipherspec and is skipped, otherwise the remaining two bytes form a
big-endian suite id. -/
def sslv2Suites : List Byte → List Nat
  | a :: b :: c :: r =>
    if a = 0 then make_u16bit b c :: sslv2Suites r else sslv2Suites r
  | _ => []

/-- Client_Hello::deserialize_sslv2 from hello.cpp: fixed-offset header
fields read at indices 0..8 (exposed here by matching the first nine
bytes; a shorter buffer fails the size check either way), an exact
total-size check, the legacy invariants (empty session id, cipher-spec
block divisible by 3, challenge length 16..32), then the cipher-spec
scan; the challenge bytes become the client random at their native
length. -/
def Client_Hello.deserialize_sslv2 (buf : List Byte) :
    Except TLSErr Client_Hello :=
  match buf with
  | b0 :: b1 :: b2 :: b3 :: b4 :: b5 :: b6 :: b7 :: b8 :: rest =>
    if 9 + rest.length < 12 ∨ b0 ≠ 1 then .error .decodingError
    else
      let cipher_spec_len := make_u16bit b3 b4
      let sess_id_len := make_u16bit b5 b6
      let challenge_len := make_u16bit b7 b8
      if 9 + rest.length ≠ 9 + sess_id_len + cipher_spec_len + challenge_len then
        .error .decodingError
      else if sess_id_len ≠ 0 ∨ cipher_spec_len % 3 ≠ 0 ∨
          challenge_len < 16 ∨ 32 < challenge_len then
        .error .decodingError
      else
        .ok ⟨make_u16bit b1 b2,
             (rest.drop (cipher_spec_len + sess_id_len)).take challenge_len,
             [], sslv2Suites (rest.take cipher_spec_len), [], [], []⟩
  | _ => .error .decodingError

/-- The 3-byte entries of a legacy cipher-spec block, flattened. -/
def specBytes : List (Nat × Nat × Nat) → List Byte
  | [] => []
  | (a, b, c) :: r => a :: b :: c :: specBytes r

lemma specBytes_length (l : List (Nat × Nat × Nat)) :
    (specBytes l).length = 3 * l.length := by
  induction l with
  | nil => simp [specBytes]
  | cons hd tl ih =>
    obtain ⟨a, b, c⟩ := hd
    simp [specBytes, ih]
    ring

lemma sslv2Suites_specBytes (l : List (Nat × Nat × Nat)) :
    sslv2Suites (specBytes l) =
      (l.filter (fun e => e.1 = 0)).map (fun e => make_u16bit e.2.1 e.2.2) := by
  induction l with
  | nil => simp [specBytes, sslv2Suites]
  | cons hd tl ih =>
    obtain ⟨a, b, c⟩ := hd
    by_cases ha : a = 0
    · simp [specBytes, sslv2Suites, ha, ih, List.filter]
    · simp [specBytes, sslv2Suites, ha, ih, List.filter]

/-- Claim C5: every well-formed legacy (SSLv2-style) Client Hello body —
first byte 1, total size exactly 9 + session_id_len + cipher_spec_len +
challenge_len, empty session id, cipher-spec block a whole number of
3-byte entries, challenge length in [16, 32] — decodes successfully; the
suite list is, in order, the big-endian 2-byte ids of exactly those
entries whose first byte is 0, and the client random is the challenge at
its native length. -/
theorem sslv2_decode_wellformed (v1 v2 : Byte) (specs : List (Nat × Nat × Nat))
    (chal : List Byte) (h16 : 16 ≤ chal.length) (h32 : chal.length ≤ 32)
    (_hn : 3 * specs.length ≤ 65535) :
    Client_Hello.deserialize_sslv2
      (1 :: v1 :: v2 :: (3 * specs.length) / 256 :: (3 * specs.length) % 256 ::
        0 :: 0 :: chal.length / 256 :: chal.length % 256 ::
        (specBytes specs ++ chal)) =
      .ok ⟨make_u16bit v1 v2, chal, [],
        (specs.filter (fun e => e.1 = 0)).map (fun e => make_u16bit e.2.1 e.2.2),
        [], [], []⟩ := by
  have hsb : (specBytes specs).length = 3 * specs.length := specBytes_length specs
  have hcl : make_u16bit ((3 * specs.length) / 256) ((3 * specs.length) % 256) =
      3 * specs.length := by unfold make_u16bit; omega
  have hch : make_u16bit (chal.length / 256) (chal.length % 256) = chal.length := by
    unfold make_u16bit; omega
  have hz : make_u16bit 0 0 = 0 := by simp [make_u16bit]
  have hrl : (specBytes specs ++ chal).length = 3 * specs.length + chal.length := by
    simp [hsb]
  have hc1 : ¬(9 + (3 * specs.length + chal.length) < 12 ∨ (1 : Nat) ≠ 1) := by
    omega
  have hc2 : ¬(9 + (3 * specs.length + chal.length) ≠
      9 + 0 + 3 * specs.length + chal.length) := by omega
  have hc3 : ¬((0 : Nat) ≠ 0 ∨ 3 * specs.length % 3 ≠ 0 ∨
      chal.length < 16 ∨ 32 < chal.length) := by omega
  simp only [Client_Hello.deserialize_sslv2, hcl, hch, hz, hrl]
  rw [if_neg hc1, if_neg hc2, if_neg hc3]
  have hdrop : (specBytes specs ++ chal).drop (3 * specs.length + 0) = chal := by
    rw [Nat.add_zero, List.drop_left' hsb]
  rw [List.take_left' hsb, hdrop,
    List.take_of_length_le (Nat.le_refl _), sslv2Suites_specBytes]

/-- Witness for C5 at a concrete legacy hello: one modern-style entry
(0, 0, 47) kept, one SSLv2-only entry (1, 2, 3) dropped, a 16-byte
challenge. -/
theorem sslv2_decode_wellformed_witness :
    16 ≤ (List.replicate 16 (7 : Nat)).length ∧
    (List.replicate 16 (7 : Nat)).length ≤ 32 ∧
    3 * ([(0, 0, 47), (1, 2, 3)] : List (Nat × Nat × Nat)).length ≤ 65535 ∧
    Client_Hello.deserialize_sslv2
      (1 :: 3 :: 0 ::
        (3 * ([(0, 0, 47), (1, 2, 3)] : List (Nat × Nat × Nat)).length) / 256 ::
        (3 * ([(0, 0, 47), (1, 2, 3)] : List (Nat × Nat × Nat)).length) % 256 ::
        0 :: 0 :: (List.replicate 16 (7 : Nat)).length / 256 ::
        (List.replicate 16 (7 : Nat)).length % 256 ::
        (specBytes [(0, 0, 47), (1, 2, 3)] ++ List.replicate 16 7)) =
      .ok ⟨make_u16bit 3 0, List.replicate 16 7, [],
        (([(0, 0, 47), (1, 2, 3)] : List (Nat × Nat × Nat)).filter
          (fun e => e.1 = 0)).map (fun e => make_u16bit e.2.1 e.2.2),
        [], [], []⟩ := by
  refine ⟨by simp, by simp, by simp, ?_⟩
  exact sslv2_decode_wellformed 3 0 [(0, 0, 47), (1, 2, 3)]
    (List.replicate 16 7) (by simp) (by simp) (by simp)

/-!
## Modern-format Client Hello deserialization
-/

/-- Modelled from the spec: the Server Name Indication extension code
(declared in a header outside the given sources; the reference protocol
value is 0). -/
def TLSEXT_SERVER_NAME_INDICATION : Nat := 0

/-- Modelled from the spec: the SRP identifier extension code (reference
protocol value 12). -/
def TLSEXT_SRP_IDENTIFIER : Nat := 12

/-- Wrapping 16-bit subtraction: the SNI loop counter name_bytes is a
u16bit, so its compound subtraction truncates modulo 2^16. -/
def u16sub (a b : Nat) : Nat := (a + 65536 - b % 65536) % 65536

/-- The inner name loop of the SNI branch of Client_Hello::deserialize:
while the 16-bit counter is nonzero, read a name-type byte (decrementing
the counter); a DNS-type (0) entry reads a 2-byte-length-prefixed name,
assigns it to requested_hostname, and subtracts 2 plus the name length
from the counter with 16-bit wraparound; any other type discards the
remaining counted bytes and zeroes the counter. The fuel argument is one
more than the remaining input length at the call site; every iteration
consumes at least one input byte, so the fuel branch is unreachable. -/
def sniNameLoop : Nat → Nat → List Byte → List Byte →
    Except TLSErr (List Byte × List Byte)
  | _, 0, host, r => .ok (host, r)
  | 0, _ + 1, _, _ => .error .fuelExhausted
  | fuel + 1, nb + 1, host, r =>
    match readByte r with
    | .error e => .error e
    | .ok (name_type, r1) =>
      if name_type = 0 then
        match readRangeVecByte2 1 65535 r1 with
        | .error e => .error e
        | .ok (name, r2) => sniNameLoop fuel (u16sub nb (2 + name.length)) name r2
      else
        match discardNext nb r1 with
        | .error e => .error e
        | .ok r2 => sniNameLoop fuel 0 host r2

/-- The extension loop of Client_Hello::deserialize: while bytes remain,
read a 2-byte extension code and a 2-byte extension size; the SNI code
runs the name loop (its own declared list length, the extension size
being ignored), the SRP code reads a 1-byte-length-prefixed identity,
and any other code skips exactly the declared size. Fuel as above. -/
def extLoop : Nat → Client_Hello → List Byte → Except TLSErr Client_Hello
  | _, ch, [] => .ok ch
  | 0, _, _ :: _ => .error .fuelExhausted
  | fuel + 1, ch, r =>
    match readU16 r with
    | .error e => .error e
    | .ok (extension_code, r1) =>
      match readU16 r1 with
      | .error e => .error e
      | .ok (extension_size, r2) =>
        if extension_code = TLSEXT_SERVER_NAME_INDICATION then
          match readU16 r2 with
          | .error e => .error e
          | .ok (name_bytes, r3) =>
            match sniNameLoop (r3.length + 1) name_bytes ch.requested_hostname r3 with
            | .error e => .error e
            | .ok (host, r4) =>
              extLoop fuel ⟨ch.c_version, ch.c_random, ch.sess_id, ch.suites,
                ch.comp_methods, host, ch.requested_srp_id⟩ r4
        else if extension_code = TLSEXT_SRP_IDENTIFIER then
          match readRangeVecByte1 1 255 r2 with
          | .error e => .error e
          | .ok (name, r3) =>
            extLoop fuel ⟨ch.c_version, ch.c_random, ch.sess_id, ch.suites,
              ch.comp_methods, ch.requested_hostname, name⟩ r3
        else
          match discardNext extension_size r2 with
          | .error e => .error e
          | .ok r3 => extLoop fuel ch r3

/-- Client_Hello::deserialize from hello.cpp (modern format): version,
32-byte random, 1-byte-length-prefixed session id (0..32), 2-byte-length
prefixed suite list (1..32767 elements), 1-byte-length-prefixed
compression list (1..255 elements); if bytes remain, a 2-byte total
extension size that must equal the remaining byte count exactly,
followed by the extension loop. -/
def Client_Hello.deserialize (buf : List Byte) : Except TLSErr Client_Hello :=
  if buf.length = 0 then .error .decodingError
  else if buf.length < 41 then .error .decodingError
  else
    match readU16 buf with
    | .error e => .error e
    | .ok (ver, r1) =>
      match readFixed 32 r1 with
      | .error e => .error e
      | .ok (rnd, r2) =>
        match readRange1 0 32 r2 with
        | .error e => .error e
        | .ok (sid, r3) =>
          match readRangeVecU16 1 32767 r3 with
          | .error e => .error e
          | .ok (sts, r4) =>
            match readRangeVecByte1 1 255 r4 with
            | .error e => .error e
            | .ok (cmp, r5) =>
              match r5 with
              | [] => .ok ⟨ver, rnd, sid, sts, cmp, [], []⟩
              | _ :: _ =>
                match readU16 r5 with
                | .error e => .error e
                | .ok (all_extn_size, r6) =>
                  if r6.length = all_extn_size then
                    extLoop (r6.length + 1) ⟨ver, rnd, sid, sts, cmp, [], []⟩ r6
                  else .error .decodingError

/-!
## Properties of the SNI name loop
-/

/-- Larger fuel never changes a result other than fuel exhaustion. -/
lemma sniNameLoop_mono (fuel : Nat) :
    ∀ (fuel2 nb : Nat) (host r : List Byte)
      (res : Except TLSErr (List Byte × List Byte)),
    sniNameLoop fuel nb host r = res → res ≠ .error .fuelExhausted →
    fuel ≤ fuel2 → sniNameLoop fuel2 nb host r = res := by
  induction fuel with
  | zero =>
    intro fuel2 nb host r res h hne _
    match nb with
    | 0 => simpa [sniNameLoop] using h
    | k + 1 =>
      exfalso
      apply hne
      rw [← h]
      simp [sniNameLoop]
  | succ f ih =>
    intro fuel2 nb host r res h hne hle
    match nb with
    | 0 => simpa [sniNameLoop] using h
    | k + 1 =>
      obtain ⟨f2, rfl⟩ : ∃ f2, fuel2 = f2 + 1 := ⟨fuel2 - 1, by omega⟩
      simp only [sniNameLoop] at h ⊢
      cases hrb : readByte r with
      | error e => rw [hrb] at h; simpa [hrb] using h
      | ok p =>
        obtain ⟨t1, r1⟩ := p
        rw [hrb] at h
        simp only at h ⊢
        by_cases ht : t1 = 0
        · rw [if_pos ht] at h
          rw [if_pos ht]
          cases hrv : readRangeVecByte2 1 65535 r1 with
          | error e => rw [hrv] at h; simpa [hrv] using h
          | ok q =>
            obtain ⟨name, r2⟩ := q
            rw [hrv] at h
            simp only at h ⊢
            exact ih f2 _ _ _ _ h hne (by omega)
        · rw [if_neg ht] at h
          rw [if_neg ht]
          cases hd : discardNext k r1 with
          | error e => rw [hd] at h; simpa [hd] using h
          | ok r2 => rw [hd] at h; exact h

/-- The total declared size of a list of DNS name entries: each entry is
one type byte, two length bytes, and the name bytes. -/
def entriesLen : List (List Byte) → Nat
  | [] => 0
  | n :: t => 3 + n.length + entriesLen t

/-- Wire encoding of a list of DNS-type name entries. -/
def encodeEntries : List (List Byte) → List Byte
  | [] => []
  | n :: t => 0 :: n.length / 256 :: n.length % 256 :: (n ++ encodeEntries t)

/-- The hostname retained after processing DNS entries in order: each
assignment overwrites the previous one. -/
def lastHost (h : List Byte) : List (List Byte) → List Byte
  | [] => h
  | n :: t => lastHost n t

lemma sniNameLoop_entries (es : List (List Byte)) :
    ∀ (fuel : Nat) (h0 rest : List Byte), es ≠ [] →
    (∀ n ∈ es, 1 ≤ n.length ∧ n.length ≤ 65535) → entriesLen es ≤ 65535 →
    es.length ≤ fuel →
    sniNameLoop fuel (entriesLen es) h0 (encodeEntries es ++ rest) =
      .ok (lastHost h0 es, rest) := by
  induction es with
  | nil => intro _ _ _ hne _ _ _; exact absurd rfl hne
  | cons n t ih =>
    intro fuel h0 rest _ hlen htot hfuel
    have hfl : t.length + 1 ≤ fuel := by simpa using hfuel
    obtain ⟨f, rfl⟩ : ∃ f, fuel = f + 1 := ⟨fuel - 1, by omega⟩
    have htot2 : 3 + n.length + entriesLen t ≤ 65535 := by
      simpa [entriesLen] using htot
    have h1n : 1 ≤ n.length := (hlen n (by simp)).1
    have h2n : n.length ≤ 65535 := (hlen n (by simp)).2
    have hnb : entriesLen (n :: t) = (2 + n.length + entriesLen t) + 1 := by
      simp [entriesLen]; omega
    have hread : readRangeVecByte2 1 65535
        (n.length / 256 :: n.length % 256 :: (n ++ (encodeEntries t ++ rest))) =
        .ok (n, encodeEntries t ++ rest) := by
      have hm : make_u16bit (n.length / 256) (n.length % 256) = n.length := by
        unfold make_u16bit; omega
      simp only [readRangeVecByte2, hm]
      rw [if_pos ⟨h1n, h2n⟩]
      unfold readFixed
      rw [if_pos (by simp)]
      rw [List.take_left, List.drop_left]
    have hsub : u16sub (2 + n.length + entriesLen t) (2 + n.length) =
        entriesLen t := by
      unfold u16sub; omega
    rw [hnb]
    show sniNameLoop (f + 1) ((2 + n.length + entriesLen t) + 1) h0
      (encodeEntries (n :: t) ++ rest) = .ok (lastHost h0 (n :: t), rest)
    simp only [encodeEntries, List.cons_append, List.append_assoc]
    simp only [sniNameLoop, readByte]
    rw [if_pos trivial, hread]
    simp only [hsub, lastHost]
    by_cases ht : t = []
    · subst ht
      simp [sniNameLoop, entriesLen, encodeEntries, lastHost]
    · exact ih f n rest ht (fun m hm => hlen m (by simp [hm]))
        (by omega) (by omega)

lemma sniNameLoop_skip (f2 nb : Nat) (t : Byte) (junk rest2 h2 : List Byte)
    (ht : t ≠ 0) (hj : junk.length = nb) :
    sniNameLoop (f2 + 1) (nb + 1) h2 (t :: (junk ++ rest2)) = .ok (h2, rest2) := by
  have hd : discardNext nb (junk ++ rest2) = .ok rest2 := by
    unfold discardNext
    rw [if_pos (by simp [← hj])]
    rw [← hj, List.drop_left]
  simp only [sniNameLoop, readByte]
  rw [if_neg ht, hd]

/-- Counterexample to claim C2: a modern Client Hello whose SNI
extension declares two DNS-type entries, with names [65] and [66]; the
decode succeeds and retains [66], the SECOND DNS name, because each DNS
entry overwrites requested_hostname — not the first name [65] as the
claim states. -/
theorem sni_first_dns_name_not_retained :
    Client_Hello.deserialize
      ([3, 1] ++ List.replicate 32 0 ++
        [0, 0, 2, 0, 47, 1, 0, 0, 14, 0, 0, 0, 10, 0, 8, 0, 0, 1, 65, 0, 0, 1, 66]) =
      .ok ⟨769, List.replicate 32 0, [], [47], [0], [66], []⟩ ∧
    ([66] : List Byte) ≠ [65] := by
  exact ⟨rfl, by decide⟩

/-- Claim C2 as amended: in the SNI name loop, when several DNS-type
entries are present the LAST DNS name found is retained (so a single
DNS-type entry of N bytes yields a retained hostname of exactly those N
bytes), and a non-DNS-type entry causes the remaining declared name-list
bytes to be skipped without decode failure, leaving the previously
retained hostname. -/
theorem sni_retains_last_dns_name
    (es : List (List Byte)) (fuel : Nat) (h0 rest : List Byte)
    (t : Byte) (nb : Nat) (junk rest2 h2 : List Byte) (f2 : Nat)
    (hne : es ≠ []) (hlen : ∀ n ∈ es, 1 ≤ n.length ∧ n.length ≤ 65535)
    (htot : entriesLen es ≤ 65535) (hfuel : es.length ≤ fuel)
    (ht : t ≠ 0) (hj : junk.length = nb) :
    sniNameLoop fuel (entriesLen es) h0 (encodeEntries es ++ rest) =
      .ok (lastHost h0 es, rest) ∧
    sniNameLoop (f2 + 1) (nb + 1) h2 (t :: (junk ++ rest2)) = .ok (h2, rest2) :=
  ⟨sniNameLoop_entries es fuel h0 rest hne hlen htot hfuel,
   sniNameLoop_skip f2 nb t junk rest2 h2 ht hj⟩

/-- Witness for the amended C2: two DNS entries [65] and [66] retain
[66]; a non-DNS entry of type 1 is skipped without failure. -/
theorem sni_retains_last_dns_name_witness :
    ([[65], [66]] : List (List Byte)) ≠ [] ∧
    (∀ n ∈ ([[65], [66]] : List (List Byte)), 1 ≤ n.length ∧ n.length ≤ 65535) ∧
    entriesLen [[65], [66]] ≤ 65535 ∧
    ([[65], [66]] : List (List Byte)).length ≤ 2 ∧
    (1 : Byte) ≠ 0 ∧ ([] : List Byte).length = 0 ∧
    (sniNameLoop 2 (entriesLen [[65], [66]]) [] (encodeEntries [[65], [66]] ++ []) =
        .ok (lastHost [] [[65], [66]], []) ∧
      sniNameLoop (0 + 1) (0 + 1) [] (1 :: ([] ++ [])) = .ok ([], [])) := by
  refine ⟨by decide, by decide, by decide, by decide, by decide, by decide, ?_⟩
  exact sni_retains_last_dns_name [[65], [66]] 2 [] [] 1 0 [] [] [] 0
    (by decide) (by decide) (by decide) (by decide) (by decide) (by decide)

/-- One DNS-entry iteration of the name loop, fully generic: read the
type byte 0, the 2-byte length and the name, overwrite the hostname, and
continue with the counter decreased with 16-bit wraparound. -/
lemma sniNameLoop_dns_step (f nb : Nat) (name r2 host : List Byte)
    (h1 : 1 ≤ name.length) (h2 : name.length ≤ 65535) :
    sniNameLoop (f + 1) (nb + 1) host
      (0 :: name.length / 256 :: name.length % 256 :: (name ++ r2)) =
    sniNameLoop f (u16sub nb (2 + name.length)) name r2 := by
  have hread : readRangeVecByte2 1 65535
      (name.length / 256 :: name.length % 256 :: (name ++ r2)) =
      .ok (name, r2) := by
    have hm : make_u16bit (name.length / 256) (name.length % 256) =
        name.length := by
      unfold make_u16bit; omega
    simp only [readRangeVecByte2, hm]
    rw [if_pos ⟨h1, h2⟩]
    unfold readFixed
    rw [if_pos (by simp)]
    rw [List.take_left, List.drop_left]
  simp only [sniNameLoop, readByte]
  rw [if_pos (by trivial), hread]

lemma c10_base :
    sniNameLoop 2 2 [] ([0, 0, 1, 65, 1] ++ (List.replicate 65533 0 ++ [99])) =
      .ok ([65], [99]) := by
  have hstep1 : sniNameLoop 2 2 []
      ([0, 0, 1, 65, 1] ++ (List.replicate 65533 0 ++ [99])) =
      sniNameLoop 1 (u16sub 1 (2 + List.length [65])) [65]
        (1 :: (List.replicate 65533 0 ++ [99])) :=
    sniNameLoop_dns_step 1 1 [65] (1 :: (List.replicate 65533 0 ++ [99])) []
      (by decide) (by decide)
  have hstep2 : sniNameLoop (0 + 1) (65533 + 1) [65]
      (1 :: (List.replicate 65533 0 ++ [99])) = .ok ([65], [99]) :=
    sniNameLoop_skip 0 65533 1 (List.replicate 65533 0) [99] [65]
      (by decide) (by rw [List.length_replicate])
  exact hstep1.trans hstep2

/-- Claim C10: the SNI name-byte counter is decremented without an
underflow guard. On an input whose declared name list is 2 bytes but
whose first DNS entry consumes 4 bytes (type byte, 2 length bytes, a
1-byte name), the counter wraps modulo 2^16 (u16sub 1 3 = 65534) and the
loop keeps consuming input far past the declared boundary: of the 65539
available bytes it consumes 65538 — the declared 2 plus 65536 — reading
bytes that belong to subsequent extensions, and returns successfully
instead of stopping at the declared SNI list boundary. -/
theorem sni_counter_underflow_wraps (fuel : Nat) (hf : 2 ≤ fuel) :
    sniNameLoop fuel 2 [] ([0, 0, 1, 65, 1] ++ (List.replicate 65533 0 ++ [99])) =
      .ok ([65], [99]) ∧
    u16sub 1 3 = 65534 ∧
    ([0, 0, 1, 65, 1] ++ (List.replicate 65533 0 ++ [99]) : List Byte).length =
      65539 := by
  refine ⟨?_, by decide, ?_⟩
  · exact sniNameLoop_mono 2 fuel 2 [] _ _ c10_base (by simp) hf
  · rw [List.length_append, List.length_append, List.length_replicate]
    norm_num

/-!
## Round trip of the modern Client Hello
-/

lemma encodeU16s_length (l : List Nat) :
    (encodeU16s l).length = 2 * l.length := by
  induction l with
  | nil => simp [encodeU16s]
  | cons s t ih => simp [encodeU16s, ih]; ring

lemma parseU16s_encodeU16s (l : List Nat) (hel : ∀ s ∈ l, s < 65536) :
    parseU16s (encodeU16s l) = l := by
  induction l with
  | nil => simp [encodeU16s, parseU16s]
  | cons s t ih =>
    have hs : s < 65536 := hel s (by simp)
    have hm : make_u16bit (s / 256 % 256) (s % 256) = s := by
      unfold make_u16bit; omega
    simp only [encodeU16s, parseU16s, hm]
    rw [ih (fun m hm2 => hel m (by simp [hm2]))]

lemma readFixed_exact {l : List Byte} {n : Nat} (h : l.length = n)
    (r : List Byte) : readFixed n (l ++ r) = .ok (l, r) := by
  subst h
  unfold readFixed
  rw [if_pos (by simp)]
  rw [List.take_left, List.drop_left]

lemma readRange1_exact (lo hi : Nat) {l : List Byte}
    (h1 : lo ≤ l.length) (h2 : l.length ≤ hi) (r : List Byte) :
    readRange1 lo hi (l.length :: (l ++ r)) = .ok (l, r) := by
  simp only [readRange1]
  rw [if_pos ⟨h1, h2⟩]
  exact readFixed_exact rfl r

lemma readRangeVecByte1_exact (lo hi : Nat) {l : List Byte}
    (h1 : lo ≤ l.length) (h2 : l.length ≤ hi) (r : List Byte) :
    readRangeVecByte1 lo hi (l.length :: (l ++ r)) = .ok (l, r) := by
  simp only [readRangeVecByte1]
  rw [if_pos ⟨h1, h2⟩]
  exact readFixed_exact rfl r

lemma readRangeVecU16_exact (lo hi : Nat) {l : List Nat}
    (h1 : lo ≤ l.length) (h2 : l.length ≤ hi) (h3 : 2 * l.length < 65536)
    (hel : ∀ s ∈ l, s < 65536) (r : List Byte) :
    readRangeVecU16 lo hi
      ((2 * l.length) / 256 % 256 :: (2 * l.length) % 256 ::
        (encodeU16s l ++ r)) = .ok (l, r) := by
  have hm : make_u16bit ((2 * l.length) / 256 % 256) ((2 * l.length) % 256) =
      2 * l.length := by
    unfold make_u16bit; omega
  simp only [readRangeVecU16, hm]
  rw [if_pos (by omega)]
  simp only [readFixed_exact (encodeU16s_length l) r,
    parseU16s_encodeU16s l hel]

/-- Claim C4: for every Client Hello with a 32-byte random, a session id
of at most 32 bytes, 1..32767 offered suites (each a 16-bit value),
1..255 compression methods, a 16-bit version, and no extensions,
deserializing the serialized bytes succeeds and reproduces exactly the
version, random, session id, suite list and compression list. -/
theorem clientHello_roundtrip (x : Client_Hello)
    (hr : x.c_random.length = 32) (hs : x.sess_id.length ≤ 32)
    (hn1 : 1 ≤ x.suites.length) (hn2 : x.suites.length ≤ 32767)
    (hsu : ∀ s ∈ x.suites, s < 65536)
    (hm1 : 1 ≤ x.comp_methods.length) (hm2 : x.comp_methods.length ≤ 255)
    (hv : x.c_version < 65536) :
    Client_Hello.deserialize (Client_Hello.serialize x) =
      .ok ⟨x.c_version, x.c_random, x.sess_id, x.suites, x.comp_methods,
        [], []⟩ := by
  obtain ⟨v, rnd, sid, sts, cmp, rh, rs⟩ := x
  simp only at hr hs hn1 hn2 hsu hm1 hm2 hv
  have hsidm : sid.length % 256 = sid.length := by omega
  have hcmpm : cmp.length % 256 = cmp.length := by omega
  have hser : Client_Hello.serialize ⟨v, rnd, sid, sts, cmp, rh, rs⟩ =
      v / 256 % 256 :: v % 256 :: (rnd ++ (sid.length :: (sid ++
        ((2 * sts.length) / 256 % 256 :: (2 * sts.length) % 256 ::
          (encodeU16s sts ++ (cmp.length :: (cmp ++ []))))))) := by
    simp only [Client_Hello.serialize, lenValue1, lenValueU16, hsidm, hcmpm,
      List.cons_append, List.append_assoc, List.append_nil]
  rw [hser]
  have hlen : (v / 256 % 256 :: v % 256 :: (rnd ++ (sid.length :: (sid ++
      ((2 * sts.length) / 256 % 256 :: (2 * sts.length) % 256 ::
        (encodeU16s sts ++ (cmp.length :: (cmp ++ [])))))))).length =
      38 + sid.length + 2 * sts.length + cmp.length := by
    simp only [List.length_cons, List.length_append, List.length_nil,
      encodeU16s_length, hr]
    omega
  have hv2 : make_u16bit (v / 256 % 256) (v % 256) = v := by
    unfold make_u16bit; omega
  simp only [Client_Hello.deserialize, hlen]
  rw [if_neg (by omega), if_neg (by omega)]
  simp only [readU16, hv2, readFixed_exact hr,
    readRange1_exact 0 32 (Nat.zero_le _) hs,
    readRangeVecU16_exact 1 32767 hn1 hn2 (by omega) hsu,
    readRangeVecByte1_exact 1 255 hm1 hm2]

/-- Witness for C4 at a concrete Client Hello. -/
theorem clientHello_roundtrip_witness :
    (⟨769, List.replicate 32 5, [9], [49169, 47], [1, 0], [], []⟩ :
        Client_Hello).c_random.length = 32 ∧
    Client_Hello.deserialize (Client_Hello.serialize
      ⟨769, List.replicate 32 5, [9], [49169, 47], [1, 0], [], []⟩) =
      .ok ⟨769, List.replicate 32 5, [9], [49169, 47], [1, 0], [], []⟩ := by
  refine ⟨by simp, ?_⟩
  exact clientHello_roundtrip ⟨769, List.replicate 32 5, [9], [49169, 47],
    [1, 0], [], []⟩ (by simp) (by simp) (by simp) (by simp) (by decide)
    (by simp) (by simp) (by decide)

/-- Witness for C10 at fuel 2. -/
theorem sni_counter_underflow_wraps_witness :
    2 ≤ 2 ∧
    (sniNameLoop 2 2 [] ([0, 0, 1, 65, 1] ++ (List.replicate 65533 0 ++ [99])) =
        .ok ([65], [99]) ∧
      u16sub 1 3 = 65534 ∧
      ([0, 0, 1, 65, 1] ++ (List.replicate 65533 0 ++ [99]) : List Byte).length =
        65539) :=
  ⟨by decide, sni_counter_underflow_wraps 2 (by decide)⟩

/-!
## Server Hello
-/

/-- The data fields of Server_Hello (tls_messages.h). -/
structure Server_Hello where
  s_version : Nat
  sess_id : List Byte
  s_random : List Byte
  suite : Nat
  comp_method : Byte
deriving DecidableEq

/-- Server_Hello::serialize from hello.cpp: two version bytes, the raw
random, the length-prefixed session id, the two big-endian suite bytes,
and the compression method byte. -/
def Server_Hello.serialize (sh : Server_Hello) : List Byte :=
  (sh.s_version / 256 % 256 :: sh.s_version % 256 :: sh.s_random)
    ++ lenValue1 sh.sess_id
    ++ [sh.suite / 256 % 256, sh.suite % 256, sh.comp_method]

/-- The negotiating Server_Hello constructor from hello.cpp: scan the
certificates for RSA and DSA keys (here the list of their public-key
algorithm names), ask the policy to choose a suite from the client
offer under those flags; the sentinel 0 raises a handshake failure
before anything is framed, hashed or written; otherwise choose the
compression method and send. The policy and RNG are external
collaborators passed as functions and the fresh 32-byte random as a
value. -/
def Server_Hello.negotiate (chooseSuite : List Nat → Bool → Bool → Nat)
    (chooseCompression : List Byte → Byte)
    (certAlgos : List String) (cHello : Client_Hello)
    (sessionId : List Byte) (ver : Nat) (sRandom : List Byte)
    (h : TLS_Handshake_Hash) :
    Except TLSErr (Server_Hello × TLS_Handshake_Hash × List WireEvent) :=
  let have_rsa := certAlgos.any (fun a => a = "RSA")
  let have_dsa := certAlgos.any (fun a => a = "DSA")
  let suite := chooseSuite cHello.suites have_rsa have_dsa
  if suite = 0 then .error .handshakeFailure
  else
    let sh : Server_Hello := ⟨ver, sessionId, sRandom, suite,
      chooseCompression cHello.comp_methods⟩
    let r := HandshakeMessage.send SERVER_HELLO (Server_Hello.serialize sh) h
    .ok (sh, r.1, r.2)

/-- The caller-supplied Server_Hello constructor from hello.cpp: suite,
compression, version and session id come directly from the caller, with
no check, and the message is sent immediately. -/
def Server_Hello.supplied (sessionId : List Byte) (ciphersuite : Nat)
    (compression : Byte) (ver : Nat) (sRandom : List Byte)
    (h : TLS_Handshake_Hash) :
    Server_Hello × TLS_Handshake_Hash × List WireEvent :=
  let sh : Server_Hello := ⟨ver, sessionId, sRandom, ciphersuite, compression⟩
  let r := HandshakeMessage.send SERVER_HELLO (Server_Hello.serialize sh) h
  (sh, r.1, r.2)

/-- Claim C6: in the negotiating constructor, a sentinel 0 from the
choose_suite result of the policy yields a handshake-failure error (a constructor of
the error type distinct from the decode error) and no Server Hello value
or wire events are produced; a nonzero choice yields a Server Hello
whose suite equals exactly the returned value. -/
theorem serverHello_negotiation (cs : List Nat → Bool → Bool → Nat)
    (cc : List Byte → Byte) (certAlgos : List String) (ch : Client_Hello)
    (sid : List Byte) (ver : Nat) (rnd : List Byte) (h : TLS_Handshake_Hash) :
    (cs ch.suites (certAlgos.any (fun a => a = "RSA"))
        (certAlgos.any (fun a => a = "DSA")) = 0 →
      Server_Hello.negotiate cs cc certAlgos ch sid ver rnd h =
          .error .handshakeFailure ∧
        TLSErr.handshakeFailure ≠ TLSErr.decodingError) ∧
    (cs ch.suites (certAlgos.any (fun a => a = "RSA"))
        (certAlgos.any (fun a => a = "DSA")) ≠ 0 →
      Except.map (fun p => p.1.suite)
          (Server_Hello.negotiate cs cc certAlgos ch sid ver rnd h) =
        .ok (cs ch.suites (certAlgos.any (fun a => a = "RSA"))
          (certAlgos.any (fun a => a = "DSA")))) := by
  constructor
  · intro h0
    refine ⟨?_, by decide⟩
    simp only [Server_Hello.negotiate, h0]
    rw [if_pos trivial]
  · intro hne
    simp only [Server_Hello.negotiate]
    rw [if_neg hne]
    rfl

/-- Witness for C6: a policy satisfying none of the offered suites fails
with a handshake failure; one returning 47 yields suite 47. -/
theorem serverHello_negotiation_witness :
    ((fun (_ : List Nat) (_ : Bool) (_ : Bool) => 0)
        ([49153, 47] : List Nat) false false = 0) ∧
    (Server_Hello.negotiate (fun _ _ _ => 0) (fun _ => 0) []
        ⟨769, List.replicate 32 0, [], [49153, 47], [0], [], []⟩
        [] 768 (List.replicate 32 0) ⟨[]⟩ = .error .handshakeFailure ∧
      TLSErr.handshakeFailure ≠ TLSErr.decodingError) ∧
    Except.map (fun p => p.1.suite)
        (Server_Hello.negotiate (fun _ _ _ => 47) (fun _ => 0) []
          ⟨769, List.replicate 32 0, [], [49153, 47], [0], [], []⟩
          [] 768 (List.replicate 32 0) ⟨[]⟩) = .ok 47 := by
  refine ⟨rfl, ?_, ?_⟩
  · exact (serverHello_negotiation (fun _ _ _ => 0) (fun _ => 0) []
      ⟨769, List.replicate 32 0, [], [49153, 47], [0], [], []⟩
      [] 768 (List.replicate 32 0) ⟨[]⟩).1 rfl
  · exact (serverHello_negotiation (fun _ _ _ => 47) (fun _ => 0) []
      ⟨769, List.replicate 32 0, [], [49153, 47], [0], [], []⟩
      [] 768 (List.replicate 32 0) ⟨[]⟩).2 (by decide)

/-- Counterexample to claim C3: the caller-supplied Server_Hello
constructor performs no check on the supplied ciphersuite; with suite 0
it builds, hashes and transmits a Server Hello whose serialized body
carries the suite bytes 0, 0 — so the value 0 is not confined to the
sentinel role and a serialized Server Hello with suite 0 is sent. -/
theorem serverHello_supplied_sends_suite_zero :
    (Server_Hello.supplied [] 0 0 768 (List.replicate 32 0) ⟨[]⟩).1.suite = 0 ∧
    (Server_Hello.supplied [] 0 0 768 (List.replicate 32 0) ⟨[]⟩).2.2 =
      [WireEvent.hashUpdated
         ([2, 0, 0, 38, 3, 0] ++ (List.replicate 32 0 ++ [0, 0, 0, 0])),
       WireEvent.wroteRecord HANDSHAKE
         ([2, 0, 0, 38, 3, 0] ++ (List.replicate 32 0 ++ [0, 0, 0, 0])),
       WireEvent.flushed] := by
  constructor
  · rfl
  · rfl

/-- Claim C3 as amended: the NEGOTIATING constructor never transmits
suite 0 — the sentinel raises a handshake failure before any framing,
hashing or transmission, and on success the suite is nonzero, so its two
serialized big-endian bytes are not both zero; the caller-supplied
constructor, by contrast, transmits whatever suite the caller passes,
verbatim and unchecked. -/
theorem serverHello_negotiated_never_sends_suite_zero
    (cs : List Nat → Bool → Bool → Nat) (cc : List Byte → Byte)
    (certAlgos : List String) (ch : Client_Hello) (sid : List Byte)
    (ver : Nat) (rnd : List Byte) (h : TLS_Handshake_Hash)
    (sh : Server_Hello) (h2 : TLS_Handshake_Hash) (evs : List WireEvent)
    (s2 : Nat) (cp2 : Byte)
    (hu16 : cs ch.suites (certAlgos.any (fun a => a = "RSA"))
      (certAlgos.any (fun a => a = "DSA")) < 65536)
    (hok : Server_Hello.negotiate cs cc certAlgos ch sid ver rnd h =
      .ok (sh, h2, evs)) :
    sh.suite ≠ 0 ∧ ¬(sh.suite / 256 % 256 = 0 ∧ sh.suite % 256 = 0) ∧
    (Server_Hello.supplied sid s2 cp2 ver rnd h).1.suite = s2 := by
  by_cases h0 : cs ch.suites (certAlgos.any (fun a => a = "RSA"))
      (certAlgos.any (fun a => a = "DSA")) = 0
  · exfalso
    simp only [Server_Hello.negotiate, h0] at hok
    rw [if_pos trivial] at hok
    exact Except.noConfusion hok
  · simp only [Server_Hello.negotiate] at hok
    rw [if_neg h0] at hok
    have hsh : sh = ⟨ver, sid, rnd,
        cs ch.suites (certAlgos.any (fun a => a = "RSA"))
          (certAlgos.any (fun a => a = "DSA")),
        cc ch.comp_methods⟩ := by
      cases hok
      rfl
    refine ⟨?_, ?_, rfl⟩
    · rw [hsh]; exact h0
    · rw [hsh]; simp only; omega

/-- Witness for the amended C3 at a policy returning suite 47. -/
theorem serverHello_negotiated_never_sends_suite_zero_witness :
    ((fun (_ : List Nat) (_ : Bool) (_ : Bool) => 47)
        ([49153, 47] : List Nat) false false < 65536) ∧
    ((⟨768, [], List.replicate 32 0, 47, 0⟩ : Server_Hello).suite ≠ 0 ∧
      ¬((⟨768, [], List.replicate 32 0, 47, 0⟩ : Server_Hello).suite / 256 % 256 = 0 ∧
        (⟨768, [], List.replicate 32 0, 47, 0⟩ : Server_Hello).suite % 256 = 0) ∧
      (Server_Hello.supplied [] 5 9 768 (List.replicate 32 0) ⟨[]⟩).1.suite = 5) := by
  refine ⟨by decide, ?_⟩
  exact serverHello_negotiated_never_sends_suite_zero
    (fun _ _ _ => 47) (fun _ => 0) []
    ⟨769, List.replicate 32 0, [], [49153, 47], [0], [], []⟩
    [] 768 (List.replicate 32 0) ⟨[]⟩
    ⟨768, [], List.replicate 32 0, 47, 0⟩
    ⟨[2, 0, 0, 38, 3, 0] ++ (List.replicate 32 0 ++ [0, 0, 47, 0])⟩
    [WireEvent.hashUpdated
       ([2, 0, 0, 38, 3, 0] ++ (List.replicate 32 0 ++ [0, 0, 47, 0])),
     WireEvent.wroteRecord HANDSHAKE
       ([2, 0, 0, 38, 3, 0] ++ (List.replicate 32 0 ++ [0, 0, 47, 0])),
     WireEvent.flushed]
    5 9 (by decide) (by rfl)

end Botan
